import Mathlib

/-!
Verification development for the Nova product-scraper core
(`src/web/services/scraper.js`).

The scraper is shallowly embedded: the pure logic (platform detection,
product-id extraction from the URL, image-list normalisation, the
validity gate and the demo-record fallback) is translated directly from
the JavaScript, while the network/DOM layer (axios fetches, cheerio
selector queries) is abstracted into per-extractor "page" structures
whose fields hold exactly the raw values the JavaScript reads off the
fetched document.  A `World` value fixes one outcome of all fetches, so
`scrape` becomes a total function `String → World → Record`.

JavaScript conventions used throughout the embedding:
  * a JS string field that may be absent/empty is a `String`, with `""`
    playing the role of the falsy value (`!s`);
  * a JS object field that some record shapes omit (or set to `null`) is
    an `Option`;
  * JS numbers are modelled as `Rat` (all numeric literals in the
    scraper are decimal); constants are written with `mkRat` so that
    they evaluate inside the kernel, e.g. `mkRat 4999 100` is `49.99`;
  * a thrown-and-not-caught exception inside an extractor is
    `Except.error ()`.
-/

/-- JS `haystack.includes(needle)` on lists of characters:
`true` iff `pat` occurs as a contiguous sublist. -/
def containsChars (pat : List Char) : List Char → Bool
  | [] => pat.isPrefixOf []
  | l@(_ :: t) => pat.isPrefixOf l || containsChars pat t

/-- JS `s.includes(pat)`. -/
def containsSub (s pat : String) : Bool :=
  containsChars pat.data s.data

/-- JS `s.startsWith(p)`. -/
def startsWithStr (s p : String) : Bool :=
  p.data.isPrefixOf s.data

/-- JS `s.toLowerCase()` (character-wise lowering, as used on URLs). -/
def lowerStr (s : String) : String :=
  String.mk (s.data.map Char.toLower)

/-- One option of a product variant: `{ name, image? }`. -/
structure VarOption where
  name : String
  image : Option String
  deriving DecidableEq

/-- A selectable product dimension: `{ name, options }`. -/
structure Variant where
  name : String
  options : List VarOption
  deriving DecidableEq

/-- One `{ key, value }` specification pair. -/
structure SpecPair where
  key : String
  value : String
  deriving DecidableEq

/-- The normalized product record, the union of the field sets produced
by `getDemoProduct` and the five extractor return objects.  Fields that
some return objects omit (or set to `null`) are `Option`s and are `none`
exactly where the JS object lacks them. -/
structure Record where
  platform : String
  productId : Option String
  url : Option String
  title : String
  price : Rat
  originalPrice : Option Rat
  currency : String
  images : List String
  description : String
  bullets : Option (List String)
  variants : List Variant
  specifications : List SpecPair
  rating : Option Rat
  reviewCount : Option Nat
  moq : Option Nat
  scrapedAt : String
  isDemo : Option Bool
  deriving DecidableEq

/-- `getDemoProduct(url, platform)`; `now` models `new Date().toISOString()`. -/
def getDemoProduct (url platform now : String) : Record :=
  { platform := platform
    productId := none
    url := some url
    title := "Premium Wireless Bluetooth Earbuds Pro"
    price := mkRat 4999 100
    originalPrice := some (mkRat 12999 100)
    currency := "USD"
    images :=
      [ "https://images.unsplash.com/photo-1590658268037-6bf12165a8df?w=800&q=80"
      , "https://images.unsplash.com/photo-1598371839696-5c5bb00bdc28?w=800&q=80"
      , "https://images.unsplash.com/photo-1606220588913-b3aacb4d2f46?w=800&q=80"
      , "https://images.unsplash.com/photo-1484704849700-f032a568e944?w=800&q=80" ]
    description := "Experience premium sound quality with our latest wireless earbuds featuring advanced active noise cancellation."
    bullets := some
      [ "Active Noise Cancellation blocks 98% of ambient noise"
      , "40-hour total battery life with wireless charging case"
      , "Premium 12mm audio drivers for rich sound"
      , "IPX5 water & sweat resistant"
      , "Touch controls for music & calls"
      , "Bluetooth 5.3 connectivity" ]
    variants :=
      [ { name := "Color"
          options :=
            [ { name := "Midnight Black", image := none }
            , { name := "Pearl White", image := none }
            , { name := "Rose Gold", image := none } ] } ]
    specifications :=
      [ { key := "Battery Life", value := "8 hours (40 with case)" }
      , { key := "Bluetooth", value := "5.3" }
      , { key := "Driver Size", value := "12mm" }
      , { key := "Water Resistance", value := "IPX5" } ]
    rating := some (mkRat 48 10)
    reviewCount := some 12847
    moq := none
    scrapedAt := now
    isDemo := some true }

/-- `detectPlatform(url)`: case-insensitive substring tests in source
order; the first hit wins, with `"generic"` as the no-match default. -/
def detectPlatform (url : String) : String :=
  let urlLower := lowerStr url
  if containsSub urlLower "aliexpress." then "aliexpress"
  else if containsSub urlLower "amazon." then "amazon"
  else if containsSub urlLower "alibaba.com" then "alibaba"
  else if containsSub urlLower "1688.com" then "1688"
  else if containsSub urlLower "cjdropshipping.com" then "cj"
  else "generic"

/-- The validity gate's rejection test in `scrape`:
`!result.title || result.title.includes("404") || result.title.length < 5 || result.price === 0`. -/
def invalidData (r : Record) : Bool :=
  r.title == "" || containsSub r.title "404" || decide (r.title.length < 5) || r.price == 0

example : detectPlatform "https://www.ALIEXPRESS.com/item/1.html" = "aliexpress" := by decide
example : detectPlatform "https://shop.example.org/x" = "generic" := by decide
example : detectPlatform "https://www.1688.com/offer/1.html" = "1688" := by decide
example : invalidData (getDemoProduct "u" "p" "t") = false := by decide

/-! ### Product-id extraction from an AliExpress URL

JS: `url.match(/\/item\/(\d+)\.html/) || url.match(/\/(\d+)\.html/) || url.match(/item\/(\d+)/)`.
Each pattern is a literal-and-digit-run scanner; `\d+` is a maximal digit
run (the following regex characters are never digits, so greedy matching
without backtracking is exact), and `.match` finds the leftmost start
position at which the whole pattern matches. -/

/-- Try `/\/item\/(\d+)\.html/` anchored at the head of `l`. -/
def matchItemHtmlAt (l : List Char) : Option String :=
  if "/item/".data.isPrefixOf l then
    let r := l.drop 6
    let ds := r.takeWhile Char.isDigit
    if ds ≠ [] ∧ ".html".data.isPrefixOf (r.drop ds.length) then
      some (String.mk ds)
    else none
  else none

/-- Try `/\/(\d+)\.html/` anchored at the head of `l`. -/
def matchSlashNumHtmlAt (l : List Char) : Option String :=
  match l with
  | '/' :: r =>
    let ds := r.takeWhile Char.isDigit
    if ds ≠ [] ∧ ".html".data.isPrefixOf (r.drop ds.length) then
      some (String.mk ds)
    else none
  | _ => none

/-- Try `/item\/(\d+)/` anchored at the head of `l`. -/
def matchItemNumAt (l : List Char) : Option String :=
  if "item/".data.isPrefixOf l then
    let ds := (l.drop 5).takeWhile Char.isDigit
    if ds ≠ [] then some (String.mk ds) else none
  else none

/-- Leftmost match: try `f` at every start position, earliest hit wins. -/
def scanFor (f : List Char → Option String) : List Char → Option String
  | [] => none
  | l@(_ :: t) =>
    match f l with
    | some r => some r
    | none => scanFor f t

/-- The product-id chain at the top of `scrapeAliExpress`. -/
def extractProductId (url : String) : Option String :=
  match scanFor matchItemHtmlAt url.data with
  | some r => some r
  | none =>
    match scanFor matchSlashNumHtmlAt url.data with
    | some r => some r
    | none => scanFor matchItemNumAt url.data

example : extractProductId "https://www.aliexpress.com/item/1005001234567890.html" = some "1005001234567890" := by decide
example : extractProductId "https://www.aliexpress.com/store" = none := by decide

/-! ### `src.replace(/\._.*_\./, ".")` (Amazon image-size stripper)

No `g` flag: only the first (leftmost) match is replaced.  `.` does not
match a line terminator, `.*` is greedy, so the match runs from the
first `._` to the last line-terminator-free `_.` after it. -/

/-- A character the regex metachar `.` matches (anything except a line
terminator). -/
def dotOk (c : Char) : Bool :=
  c ≠ '\n' && c ≠ '\r' && c ≠ Char.ofNat 0x2028 && c ≠ Char.ofNat 0x2029

/-- Greedy `.*_\.`: split `r` as `a ++ '_' :: '.' :: b` with `a`
line-terminator free and as long as possible. -/
def splitLastUD : List Char → Option (List Char × List Char)
  | [] => none
  | c :: t =>
    match splitLastUD t with
    | some (a, b) => if dotOk c then some (c :: a, b) else none
    | none => if c = '_' ∧ t.head? = some '.' then some ([], t.tail) else none

/-- One pass of `replace(/\._.*_\./, ".")`: fuelled scanner (fuel =
input length suffices, every step consumes at least one character). -/
def stripSizeAux : Nat → List Char → List Char
  | 0, l => l
  | _ + 1, [] => []
  | n + 1, '.' :: '_' :: r =>
    match splitLastUD r with
    | some (_, b) => '.' :: b
    | none => '.' :: stripSizeAux n ('_' :: r)
  | n + 1, c :: t => c :: stripSizeAux n t

/-- `src.replace(/\._.*_\./, ".")`. -/
def stripSizeStr (s : String) : String :=
  String.mk (stripSizeAux s.data.length s.data)

example : stripSizeStr "https://m.media.com/I/x._AC_SX450_.jpg" = "https://m.media.com/I/x.jpg" := by decide
example : stripSizeStr "//cdn.example.com/a.jpg" = "//cdn.example.com/a.jpg" := by decide

/-! ### `src.replace(/_\d+x\d+\.(jpg|png|webp)/gi, ".$1")` (AliExpress
thumbnail-size stripper): global, case-insensitive. -/

/-- Case-insensitive literal match of lowercase `pat` at the head of
`l`; returns the matched original characters and the rest. -/
def ciPrefixAt : List Char → List Char → Option (List Char × List Char)
  | [], rest => some ([], rest)
  | _ :: _, [] => none
  | p :: ps, c :: cs =>
    if c.toLower = p then
      match ciPrefixAt ps cs with
      | some (m, r) => some (c :: m, r)
      | none => none
    else none

/-- `(jpg|png|webp)` under the `i` flag, alternatives in source order. -/
def extMatch (l : List Char) : Option (List Char × List Char) :=
  match ciPrefixAt "jpg".data l with
  | some r => some r
  | none =>
    match ciPrefixAt "png".data l with
    | some r => some r
    | none => ciPrefixAt "webp".data l

/-- `_\d+x\d+\.(jpg|png|webp)` under `i`, anchored at the head; on a hit
returns the replacement `".$1"` text and the rest of the input. -/
def sizeTokenAt : List Char → Option (List Char × List Char)
  | '_' :: r =>
    let d1 := r.takeWhile Char.isDigit
    if d1 = [] then none else
    match r.drop d1.length with
    | x :: r2 =>
      if x.toLower = 'x' then
        let d2 := r2.takeWhile Char.isDigit
        if d2 = [] then none else
        match r2.drop d2.length with
        | '.' :: r4 =>
          match extMatch r4 with
          | some (ext, rest) => some ('.' :: ext, rest)
          | none => none
        | _ => none
      else none
    | [] => none
  | _ => none

/-- Global replace: scan left to right, restarting after each
replacement (fuel = input length suffices, every step consumes at least
one character). -/
def replaceSizeAux : Nat → List Char → List Char
  | 0, l => l
  | _ + 1, [] => []
  | n + 1, l@(c :: t) =>
    match sizeTokenAt l with
    | some (rep, rest) => rep ++ replaceSizeAux n rest
    | none => c :: replaceSizeAux n t

/-- `src.replace(/_\d+x\d+\.(jpg|png|webp)/gi, ".$1")`. -/
def replaceSizeTokens (s : String) : String :=
  String.mk (replaceSizeAux s.data.length s.data)

example : replaceSizeTokens "https://ae01.alicdn.com/kf/a_50x50.jpg" = "https://ae01.alicdn.com/kf/a.jpg" := by decide
example : replaceSizeTokens "https://x.com/a_800X800.WEBP_b_60x60.png" = "https://x.com/a.WEBP_b.png" := by decide

/-! ### Per-extractor page abstractions

Each structure holds exactly the raw values the JavaScript extractor
reads off the fetched document (cheerio selector results, embedded
`pageData` JSON fields, and already-`parseFloat`ed price chains).  A JS
string that may be empty stays a `String`; a value whose producing
object may be wholly absent is an `Option`. -/

/-- `data.item` of the AliExpress mobile-API response.
`price` abstracts `parseFloat(item.sku?.def?.promotionPrice || item.sku?.def?.price || 0)`
and `originalPrice` abstracts `parseFloat(item.sku?.def?.price || 0)`. -/
structure AliApiItem where
  title : String
  price : Rat
  originalPrice : Rat
  images : List String
  description : String

/-- The AliExpress HTML page as read by `scrapeAliExpress`:
* `pageDataImages` is `pageData?.imageModule?.imagePathList`;
* `htmlImgSrcs` lists, per `<img>`, `$(img).attr("src") || $(img).data("src") || ""`;
* `title` is the result of the title fallback chain
  (`pageData?.pageModule?.title || … || $("title").text().split("-")[0].trim()`);
* `price` abstracts the priceModule / `US $` regex / `parseFloat(price) || 0` chain;
* `originalPrice` abstracts `originalPrice ? parseFloat(originalPrice) : null`;
* `description`, `variants`, `specifications` abstract the respective
  pass-through extractions (description sub-fetch, skuModule, specsModule). -/
structure AliPage where
  pageDataImages : Option (List String)
  htmlImgSrcs : List String
  title : String
  price : Rat
  originalPrice : Option Rat
  description : String
  variants : List Variant
  specifications : List SpecPair

/-- The Amazon page as read by `scrapeAmazon`:
* `title` is `$("#productTitle").text().trim() || $("h1").first().text().trim()`;
* `price` abstracts the selector loop plus `parseFloat(price) || 0`;
* `mainImg` is the truthy value of
  `$("#landingImage").attr("src") || $("#imgBlkFront").attr("src")`, if any;
* `thumbSrcs` lists, per thumbnail `<img>`, `attr("src") || data("old-hires")`
  with `""` for a falsy value;
* `hiResImgs` lists the `colorImages` `initial[i].hiRes` values, `""` when falsy;
* the remaining fields abstract the bullet/description/variant/rating
  pass-through extractions. -/
structure AmazonPage where
  title : String
  price : Rat
  mainImg : Option String
  thumbSrcs : List String
  hiResImgs : List String
  bullets : List String
  description : String
  variants : List Variant
  rating : Rat
  reviewCount : Nat

/-- The Alibaba page as read by `scrapeAlibaba`; `imgSrcs` lists, per
gallery `<img>`, `attr("src") || data("src")` with `""` for falsy. -/
structure AlibabaPage where
  title : String
  price : Rat
  imgSrcs : List String
  description : String
  moq : Nat

/-- The generic page as read by `scrapeGeneric`; `imgSrcs` lists, per
matched `<img>`, `attr("src") || data("src")` with `""` for falsy. -/
structure GenericPage where
  title : String
  price : Rat
  imgSrcs : List String
  description : String

/-- One outcome of every fetch `scrape` may perform.  An outer `none`
models the fetch (or anything after it inside that extractor) throwing;
`aliApi = some none` models a 200 response with `!data || !data.item`.
`resolve base src` abstracts `new URL(src, base).href`, and `now`
abstracts `new Date().toISOString()`. -/
structure World where
  aliApi : Option (Option AliApiItem)
  aliPage : Option AliPage
  amazonPage : Option AmazonPage
  alibabaPage : Option AlibabaPage
  genericPage : Option GenericPage
  resolve : String → String → String
  now : String

/-! ### Image-list pipelines, one named step per JS loop body. -/

/-- The JS push idiom `if (!images.includes(u)) images.push(u)`. -/
def pushIfNew (acc : List String) (s : String) : List String :=
  if s ∈ acc then acc else acc ++ [s]

/-- AliExpress `imagePathList.forEach` body:
`imgUrl = img.startsWith("//") ? "https:"+img : img; if (!images.includes(imgUrl)) push`. -/
def aliPdStep (acc : List String) (img : String) : List String :=
  pushIfNew acc (if startsWithStr img "//" then "https:" ++ img else img)

/-- The loop over `pageData.imageModule.imagePathList`. -/
def aliPageDataImages (l : List String) : List String :=
  l.foldl aliPdStep []

/-- AliExpress `$("img").each` body: the `alicdn.com`/`http` substring
filter, then push of the size-stripped `largeSrc` when still absent. -/
def aliHtmlStep (acc : List String) (src : String) : List String :=
  if containsSub src "alicdn.com" ∧ containsSub src "http" ∧ src ∉ acc then
    pushIfNew acc (replaceSizeTokens src)
  else acc

/-- The full AliExpress image list (page-data images, then HTML images). -/
def aliexpressImages (pd : Option (List String)) (srcs : List String) : List String :=
  srcs.foldl aliHtmlStep (match pd with | some l => aliPageDataImages l | none => [])

/-- Amazon thumbnail loop body: `src = src.replace(/\._.*_\./, "."); if (!images.includes(src)) push`
(guarded by `if (src)`). -/
def amazonThumbStep (acc : List String) (src : String) : List String :=
  if src ≠ "" then pushIfNew acc (stripSizeStr src) else acc

/-- Amazon `colorImages` loop body: `if (img.hiRes && !images.includes(img.hiRes)) push`. -/
def amazonHiResStep (acc : List String) (h : String) : List String :=
  if h ≠ "" ∧ h ∉ acc then acc ++ [h] else acc

/-- The full Amazon image list: optional main image (size-stripped),
then thumbnails, then `colorImages` hi-res entries. -/
def amazonImages (p : AmazonPage) : List String :=
  p.hiResImgs.foldl amazonHiResStep
    (p.thumbSrcs.foldl amazonThumbStep
      (match p.mainImg with
       | some m => [stripSizeStr m]
       | none => []))

/-- Alibaba gallery loop body: note the source checks `!images.includes(src)`
on the raw `src` but pushes the protocol-relative-normalised form. -/
def alibabaStep (acc : List String) (src : String) : List String :=
  if src ≠ "" ∧ src ∉ acc then
    acc ++ [if startsWithStr src "//" then "https:" ++ src else src]
  else acc

/-- The full Alibaba image list. -/
def alibabaImages (srcs : List String) : List String :=
  srcs.foldl alibabaStep []

/-- Generic extractor loop body: skip falsy and `data:` sources, resolve
non-`http` sources against the page URL, then push if absent. -/
def genStep (res : String → String) (acc : List String) (src : String) : List String :=
  if src ≠ "" ∧ startsWithStr src "data:" = false then
    pushIfNew acc (if startsWithStr src "http" then src else res src)
  else acc

/-- The full generic-extractor image list. -/
def genericImages (res : String → String) (srcs : List String) : List String :=
  srcs.foldl (genStep res) []

/-! ### The extractor return objects and the extractors. -/

/-- The return object of `scrapeAliExpressAPI` — note it carries no
`url` field. -/
def apiRecord (pid : String) (item : AliApiItem) (now : String) : Record :=
  { platform := "aliexpress"
    productId := some pid
    url := none
    title := item.title
    price := item.price
    originalPrice := some item.originalPrice
    currency := "USD"
    images := item.images
    description := item.description
    bullets := none
    variants := []
    specifications := []
    rating := none
    reviewCount := none
    moq := none
    scrapedAt := now
    isDemo := none }

/-- `scrapeAliExpressAPI(productId)` over one fetch outcome. -/
def scrapeAliExpressAPI (pid : String) (w : World) : Except Unit Record :=
  match w.aliApi with
  | none => .error ()
  | some none => .error ()
  | some (some item) => .ok (apiRecord pid item w.now)

/-- The return object of the HTML branch of `scrapeAliExpress`. -/
def aliHtmlRecord (url : String) (pid : Option String) (p : AliPage) (now : String) : Record :=
  { platform := "aliexpress"
    productId := pid
    url := some url
    title := if p.title = "" then "Product" else p.title
    price := p.price
    originalPrice := p.originalPrice
    currency := "USD"
    images := (aliexpressImages p.pageDataImages p.htmlImgSrcs).take 15
    description := p.description
    bullets := none
    variants := p.variants
    specifications := p.specifications
    rating := none
    reviewCount := none
    moq := none
    scrapedAt := now
    isDemo := none }

/-- The HTML-scrape part of `scrapeAliExpress` (everything after the
mobile-API attempt falls through to this). -/
def aliExpressHtml (url : String) (pid : Option String) (w : World) : Except Unit Record :=
  match w.aliPage with
  | none => .error ()
  | some page => .ok (aliHtmlRecord url pid page w.now)

/-- `scrapeAliExpress(url)`: product-id extraction, then the guarded
mobile-API attempt (`if (apiData && apiData.title) return apiData;` with
API failures caught and logged), then the HTML scrape. -/
def scrapeAliExpress (url : String) (w : World) : Except Unit Record :=
  match extractProductId url with
  | some p =>
    match scrapeAliExpressAPI p w with
    | .ok r => if r.title ≠ "" then .ok r else aliExpressHtml url (some p) w
    | .error _ => aliExpressHtml url (some p) w
  | none => aliExpressHtml url none w

/-- The return object of `scrapeAmazon`. -/
def amazonRecord (url : String) (p : AmazonPage) (now : String) : Record :=
  { platform := "amazon"
    productId := none
    url := some url
    title := p.title
    price := p.price
    originalPrice := none
    currency := "USD"
    images := (amazonImages p).take 15
    description := p.description
    bullets := some p.bullets
    variants := p.variants
    specifications := []
    rating := some p.rating
    reviewCount := some p.reviewCount
    moq := none
    scrapedAt := now
    isDemo := none }

/-- `scrapeAmazon(url)` over one fetch outcome. -/
def scrapeAmazon (url : String) (w : World) : Except Unit Record :=
  match w.amazonPage with
  | none => .error ()
  | some p => .ok (amazonRecord url p w.now)

/-- The return object of `scrapeAlibaba`. -/
def alibabaRecord (url : String) (p : AlibabaPage) (now : String) : Record :=
  { platform := "alibaba"
    productId := none
    url := some url
    title := p.title
    price := p.price
    originalPrice := none
    currency := "USD"
    images := (alibabaImages p.imgSrcs).take 15
    description := p.description
    bullets := none
    variants := []
    specifications := []
    rating := none
    reviewCount := none
    moq := some p.moq
    scrapedAt := now
    isDemo := none }

/-- `scrapeAlibaba(url)` over one fetch outcome. -/
def scrapeAlibaba (url : String) (w : World) : Except Unit Record :=
  match w.alibabaPage with
  | none => .error ()
  | some p => .ok (alibabaRecord url p w.now)

/-- The return object of `scrapeGeneric`. -/
def genericRecord (res : String → String) (url : String) (p : GenericPage) (now : String) : Record :=
  { platform := "generic"
    productId := none
    url := some url
    title := p.title
    price := p.price
    originalPrice := none
    currency := "USD"
    images := (genericImages res p.imgSrcs).take 15
    description := p.description
    bullets := none
    variants := []
    specifications := []
    rating := none
    reviewCount := none
    moq := none
    scrapedAt := now
    isDemo := none }

/-- `scrapeGeneric(url)` over one fetch outcome. -/
def scrapeGeneric (url : String) (w : World) : Except Unit Record :=
  match w.genericPage with
  | none => .error ()
  | some p => .ok (genericRecord (w.resolve url) url p w.now)

/-- The `switch (platform)` dispatch inside `scrape`'s `try` block. -/
def runExtractor (platform url : String) (w : World) : Except Unit Record :=
  match platform with
  | "aliexpress" => scrapeAliExpress url w
  | "amazon" => scrapeAmazon url w
  | "alibaba" => scrapeAlibaba url w
  | _ => scrapeGeneric url w

/-- `scrape(url)`: platform detection, dispatch, the validity gate, and
the demo-product substitution on invalid data or any thrown error. -/
def scrape (url : String) (w : World) : Record :=
  let platform := detectPlatform url
  match runExtractor platform url w with
  | .error _ => getDemoProduct url platform w.now
  | .ok result =>
    if invalidData result then getDemoProduct url platform w.now
    else result

/-! ### Concrete fetch outcomes used to evaluate `scrape` on closed inputs. -/

/-- Every fetch fails (all extractors throw). -/
def emptyWorld : World :=
  { aliApi := none
    aliPage := none
    amazonPage := none
    alibabaPage := none
    genericPage := none
    resolve := fun _ _ => ""
    now := "2024-05-01T00:00:00.000Z" }

def aeApiUrl : String := "https://aliexpress.com/item/123.html"

/-- The AliExpress mobile API answers with a well-formed item whose
image list holds sixteen copies of one URL. -/
def aeApiWorld : World :=
  { emptyWorld with
    aliApi := some (some
      { title := "Nice Wireless Earbuds"
        price := mkRat 999 100
        originalPrice := mkRat 1999 100
        images := List.replicate 16 "https://ae01.alicdn.com/kf/x.jpg"
        description := "" }) }

def cjUrl : String := "https://cjdropshipping.com/product/solar-light"

/-- A CJ-dropshipping URL whose (generic) extraction succeeds. -/
def cjWorld : World :=
  { emptyWorld with
    genericPage := some
      { title := "Solar Garden Light"
        price := mkRat 12 1
        imgSrcs := []
        description := "" } }

def azUrl : String := "https://www.amazon.com/dp/B0TEST123"

/-- An Amazon page whose main image URL is protocol-relative. -/
def azWorld : World :=
  { emptyWorld with
    amazonPage := some
      { title := "Great Wireless Headphones"
        price := mkRat 25 1
        mainImg := some "//cdn.example.com/a.jpg"
        thumbSrcs := []
        hiResImgs := []
        bullets := []
        description := ""
        variants := []
        rating := mkRat 0 1
        reviewCount := 0 } }

def mugUrl : String := "https://example.com/shop/mug"

/-- A generic page that passes the validity gate. -/
def mugPage : GenericPage :=
  { title := "Handmade Ceramic Mug"
    price := mkRat 19 1
    imgSrcs := []
    description := "" }

def mugWorld : World := { emptyWorld with genericPage := some mugPage }

/-- The candidate record the generic extractor produces for `mugWorld`. -/
def mugRecord : Record :=
  genericRecord (mugWorld.resolve mugUrl) mugUrl mugPage mugWorld.now

/-! ### Generic facts about the image-accumulating folds. -/

/-- A loop body that either keeps the accumulator or appends one
not-yet-present element (the shape of every dedup-guarded push). -/
def GoodStep (step : List String → String → List String) : Prop :=
  ∀ a x, step a x = a ∨ ∃ y, y ∉ a ∧ step a x = a ++ [y]

/-- A loop body that only ever appends. -/
def ExtendsStep (step : List String → String → List String) : Prop :=
  ∀ a x, ∃ t, step a x = a ++ t

lemma GoodStep.extendsStep {step} (h : GoodStep step) : ExtendsStep step := by
  intro a x
  rcases h a x with he | ⟨y, _, he⟩
  · exact ⟨[], by simp [he]⟩
  · exact ⟨[y], he⟩

lemma ExtendsStep.foldl_mem {step} (h : ExtendsStep step) :
    ∀ (l acc : List String), ∀ z ∈ acc, z ∈ l.foldl step acc := by
  intro l
  induction l with
  | nil => intro acc z hz; simpa using hz
  | cons x t ih =>
    intro acc z hz
    rw [List.foldl_cons]
    rcases h acc x with ⟨u, hu⟩
    exact ih _ z (by rw [hu]; exact List.mem_append_left _ hz)

lemma GoodStep.foldl_nodup {step} (h : GoodStep step) :
    ∀ (l acc : List String), acc.Nodup → (l.foldl step acc).Nodup := by
  intro l
  induction l with
  | nil => intro acc hn; simpa using hn
  | cons x t ih =>
    intro acc hn
    rw [List.foldl_cons]
    rcases h acc x with he | ⟨y, hy, he⟩
    · rw [he]; exact ih _ hn
    · rw [he]
      refine ih _ ?_
      simp [List.nodup_append, hn, hy]

/-- If processing `x` always deposits `val x` (whenever `P x` holds) and
the fold only appends, then every listed `x` with `P x` leaves `val x`
in the final accumulator. -/
lemma foldl_processed_mem {step} (hext : ExtendsStep step) (P : String → Prop)
    (val : String → String) (hval : ∀ a x, P x → val x ∈ step a x) :
    ∀ (l acc : List String), ∀ x ∈ l, P x → val x ∈ l.foldl step acc := by
  intro l
  induction l with
  | nil => intro acc x hx; simp at hx
  | cons y t ih =>
    intro acc x hx hP
    rw [List.foldl_cons]
    rcases List.mem_cons.mp hx with rfl | hx'
    · exact hext.foldl_mem t _ _ (hval acc x hP)
    · exact ih _ x hx' hP

lemma pushIfNew_good (a : List String) (s : String) :
    pushIfNew a s = a ∨ ∃ y, y ∉ a ∧ pushIfNew a s = a ++ [y] := by
  unfold pushIfNew
  split
  · exact Or.inl rfl
  · exact Or.inr ⟨s, by assumption, rfl⟩

lemma mem_pushIfNew (a : List String) (s : String) : s ∈ pushIfNew a s := by
  unfold pushIfNew
  split
  · assumption
  · simp

lemma aliPdStep_good : GoodStep aliPdStep := by
  intro a x
  exact pushIfNew_good a _

lemma aliHtmlStep_good : GoodStep aliHtmlStep := by
  intro a x
  unfold aliHtmlStep
  split
  · exact pushIfNew_good a _
  · exact Or.inl rfl

lemma amazonThumbStep_good : GoodStep amazonThumbStep := by
  intro a x
  unfold amazonThumbStep
  split
  · exact pushIfNew_good a _
  · exact Or.inl rfl

lemma amazonHiResStep_good : GoodStep amazonHiResStep := by
  intro a x
  unfold amazonHiResStep
  split
  · next hc => exact Or.inr ⟨_, hc.2, rfl⟩
  · exact Or.inl rfl

lemma genStep_good (res : String → String) : GoodStep (genStep res) := by
  intro a x
  unfold genStep
  split
  · exact pushIfNew_good a _
  · exact Or.inl rfl

lemma alibabaStep_extends : ExtendsStep alibabaStep := by
  intro a x
  unfold alibabaStep
  split
  · exact ⟨_, rfl⟩
  · exact ⟨[], by simp⟩

lemma take15_length_le (l : List String) : (l.take 15).length ≤ 15 := by
  simp [List.length_take]

lemma take15_nodup {l : List String} (h : l.Nodup) : (l.take 15).Nodup :=
  h.sublist (List.take_sublist 15 l)

/-! ### Facts about string prefixes of the normalised image URLs. -/

lemma slashslash_shape {s : String} (h : startsWithStr s "//" = true) :
    ∃ t, s.data = '/' :: '/' :: t := by
  obtain ⟨l⟩ := s
  unfold startsWithStr at h
  have hd : ("//" : String).data = ['/', '/'] := rfl
  rw [hd] at h
  match l, h with
  | '/' :: '/' :: t, _ => exact ⟨t, rfl⟩
  | [], h => simp [List.isPrefixOf] at h
  | [c], h => simp [List.isPrefixOf] at h
  | c :: d :: t, h =>
    simp only [List.isPrefixOf, Bool.and_eq_true, beq_iff_eq] at h
    exact ⟨t, by rw [← h.1, ← h.2.1]⟩

lemma https_append_not_slashslash (s : String) :
    startsWithStr ("https:" ++ s) "//" = false := by
  unfold startsWithStr
  have hd : ("https:" ++ s).data = 'h' :: 't' :: 't' :: 'p' :: 's' :: ':' :: s.data := by
    have h6 : ("https:" : String).data = ['h', 't', 't', 'p', 's', ':'] := rfl
    rw [String.data_append, h6]; rfl
  have h2 : ("//" : String).data = ['/', '/'] := rfl
  rw [hd, h2]
  simp [List.isPrefixOf]

lemma slashslash_ne_empty {s : String} (h : startsWithStr s "//" = true) : s ≠ "" := by
  obtain ⟨t, ht⟩ := slashslash_shape h
  intro he
  rw [he] at ht
  simp at ht

lemma slashslash_not_data {s : String} (h : startsWithStr s "//" = true) :
    startsWithStr s "data:" = false := by
  obtain ⟨t, ht⟩ := slashslash_shape h
  unfold startsWithStr
  have hd : ("data:" : String).data = ['d', 'a', 't', 'a', ':'] := rfl
  rw [hd, ht]
  simp [List.isPrefixOf]

lemma slashslash_not_http {s : String} (h : startsWithStr s "//" = true) :
    startsWithStr s "http" = false := by
  obtain ⟨t, ht⟩ := slashslash_shape h
  unfold startsWithStr
  have hd : ("http" : String).data = ['h', 't', 't', 'p'] := rfl
  rw [hd, ht]
  simp [List.isPrefixOf]

lemma mem_pushIfNew_elim {a : List String} {v z : String} (h : z ∈ pushIfNew a v) :
    z ∈ a ∨ z = v := by
  unfold pushIfNew at h
  split at h
  · exact Or.inl h
  · rcases List.mem_append.mp h with h' | h'
    · exact Or.inl h'
    · exact Or.inr (by simpa using h')

/-- The protocol-relative normalisation `src.startsWith("//") ? "https:"+src : src`
never yields a `//`-prefixed string. -/
lemma norm_slashslash_false (x : String) :
    startsWithStr (if startsWithStr x "//" = true then "https:" ++ x else x) "//" = false := by
  cases hx : startsWithStr x "//" with
  | false => simp [hx]
  | true => simpa using https_append_not_slashslash x

/-- One Alibaba loop step keeps the "no protocol-relative entries"
invariant: the pushed value is either `https:`-prefixed or a source that
did not start with `//`. -/
lemma alibabaStep_inv {acc : List String} (x : String)
    (hacc : ∀ z ∈ acc, startsWithStr z "//" = false) :
    ∀ z ∈ alibabaStep acc x, startsWithStr z "//" = false := by
  intro z hz
  unfold alibabaStep at hz
  split at hz
  · rcases List.mem_append.mp hz with hz' | hz'
    · exact hacc z hz'
    · have hz1 : z = if startsWithStr x "//" = true then "https:" ++ x else x := by
        simpa using hz'
      rw [hz1]
      exact norm_slashslash_false x
  · exact hacc z hz

lemma alibaba_fold_inv :
    ∀ (srcs acc : List String), (∀ z ∈ acc, startsWithStr z "//" = false) →
      ∀ s ∈ srcs.foldl alibabaStep acc, startsWithStr s "//" = false := by
  intro srcs
  induction srcs with
  | nil => intro acc hacc s hs; exact hacc s (by simpa using hs)
  | cons x t ih =>
    intro acc hacc
    rw [List.foldl_cons]
    exact ih _ (alibabaStep_inv x hacc)

lemma alibaba_rewrite_mem :
    ∀ (srcs acc : List String), (∀ z ∈ acc, startsWithStr z "//" = false) →
      ∀ src ∈ srcs, startsWithStr src "//" = true →
        ("https:" ++ src) ∈ srcs.foldl alibabaStep acc := by
  intro srcs
  induction srcs with
  | nil => intro acc _ src h; simp at h
  | cons x t ih =>
    intro acc hacc src hsrc hss
    rw [List.foldl_cons]
    rcases List.mem_cons.mp hsrc with rfl | hsrc'
    · have hne : src ≠ "" := slashslash_ne_empty hss
      have hnotin : src ∉ acc := fun hmem =>
        absurd (hacc src hmem) (by simp [hss])
      have hstep : alibabaStep acc src = acc ++ ["https:" ++ src] := by
        unfold alibabaStep
        rw [if_pos ⟨hne, hnotin⟩, if_pos hss]
      rw [hstep]
      exact alibabaStep_extends.foldl_mem t _ _ (by simp)
    · exact ih _ (alibabaStep_inv x hacc) src hsrc' hss

/-- One AliExpress page-data loop step keeps the "no protocol-relative
entries" invariant. -/
lemma aliPdStep_inv {acc : List String} (x : String)
    (hacc : ∀ z ∈ acc, startsWithStr z "//" = false) :
    ∀ z ∈ aliPdStep acc x, startsWithStr z "//" = false := by
  intro z hz
  rcases mem_pushIfNew_elim hz with hz' | hz1
  · exact hacc z hz'
  · rw [hz1]
    exact norm_slashslash_false x

lemma aliPd_fold_inv :
    ∀ (l acc : List String), (∀ z ∈ acc, startsWithStr z "//" = false) →
      ∀ s ∈ l.foldl aliPdStep acc, startsWithStr s "//" = false := by
  intro l
  induction l with
  | nil => intro acc hacc s hs; exact hacc s (by simpa using hs)
  | cons x t ih =>
    intro acc hacc
    rw [List.foldl_cons]
    exact ih _ (aliPdStep_inv x hacc)

/-- Provenance of every generic-extractor image: it is a non-falsy,
non-`data:` source, resolved when it does not start with `http`. -/
lemma genericImages_src (res : String → String) :
    ∀ (srcs acc : List String), ∀ s ∈ srcs.foldl (genStep res) acc,
      s ∈ acc ∨ ∃ src ∈ srcs, src ≠ "" ∧ startsWithStr src "data:" = false ∧
        s = if startsWithStr src "http" then src else res src := by
  intro srcs
  induction srcs with
  | nil => intro acc s hs; exact Or.inl (by simpa using hs)
  | cons x t ih =>
    intro acc s hs
    rw [List.foldl_cons] at hs
    rcases ih _ s hs with hstep | ⟨src, hsrc, h1, h2, h3⟩
    · unfold genStep at hstep
      split at hstep
      · next hc =>
        rcases mem_pushIfNew_elim hstep with h' | h'
        · exact Or.inl h'
        · exact Or.inr ⟨x, List.mem_cons_self x t, hc.1, hc.2, h'⟩
      · exact Or.inl hstep
    · exact Or.inr ⟨src, List.mem_cons_of_mem _ hsrc, h1, h2, h3⟩

/-! ### Shape lemmas for the extractor results. -/

lemma aliExpressHtml_ok {url : String} {pid : Option String} {w : World} {c : Record}
    (h : aliExpressHtml url pid w = .ok c) :
    c.platform = "aliexpress" ∧ c.isDemo = none := by
  unfold aliExpressHtml at h
  split at h
  · exact Except.noConfusion h
  · injection h with h2; subst h2; exact ⟨rfl, rfl⟩

lemma scrapeAliExpressAPI_ok {pid : String} {w : World} {c : Record}
    (h : scrapeAliExpressAPI pid w = .ok c) :
    c.platform = "aliexpress" ∧ c.isDemo = none ∧ c.url = none := by
  unfold scrapeAliExpressAPI at h
  split at h
  · exact Except.noConfusion h
  · exact Except.noConfusion h
  · injection h with h2; subst h2; exact ⟨rfl, rfl, rfl⟩

lemma scrapeAliExpress_ok {url : String} {w : World} {c : Record}
    (h : scrapeAliExpress url w = .ok c) :
    c.platform = "aliexpress" ∧ c.isDemo = none := by
  unfold scrapeAliExpress at h
  split at h
  · split at h
    · split at h
      · next heq _ =>
        injection h with h2
        subst h2
        exact ⟨(scrapeAliExpressAPI_ok heq).1, (scrapeAliExpressAPI_ok heq).2.1⟩
      · exact aliExpressHtml_ok h
    · exact aliExpressHtml_ok h
  · exact aliExpressHtml_ok h

lemma scrapeAmazon_ok {url : String} {w : World} {c : Record}
    (h : scrapeAmazon url w = .ok c) :
    c.platform = "amazon" ∧ c.isDemo = none := by
  simp only [scrapeAmazon] at h
  split at h
  · exact Except.noConfusion h
  · injection h with h2; subst h2; exact ⟨rfl, rfl⟩

lemma scrapeAlibaba_ok {url : String} {w : World} {c : Record}
    (h : scrapeAlibaba url w = .ok c) :
    c.platform = "alibaba" ∧ c.isDemo = none := by
  simp only [scrapeAlibaba] at h
  split at h
  · exact Except.noConfusion h
  · injection h with h2; subst h2; exact ⟨rfl, rfl⟩

lemma scrapeGeneric_ok {url : String} {w : World} {c : Record}
    (h : scrapeGeneric url w = .ok c) :
    c.platform = "generic" ∧ c.isDemo = none := by
  simp only [scrapeGeneric] at h
  split at h
  · exact Except.noConfusion h
  · injection h with h2; subst h2; exact ⟨rfl, rfl⟩

/-- `detectPlatform` only ever returns one of the six platform tags. -/
lemma detectPlatform_cases (url : String) :
    detectPlatform url = "aliexpress" ∨ detectPlatform url = "amazon"
    ∨ detectPlatform url = "alibaba" ∨ detectPlatform url = "1688"
    ∨ detectPlatform url = "cj" ∨ detectPlatform url = "generic" := by
  simp only [detectPlatform]
  repeat' split
  all_goals simp

/-- Every record an extractor hands to the gate lacks the `isDemo` key. -/
lemma runExtractor_ok_isDemo {p url : String} {w : World} {c : Record}
    (h : runExtractor p url w = .ok c) : c.isDemo = none := by
  unfold runExtractor at h
  split at h
  · exact (scrapeAliExpress_ok h).2
  · exact (scrapeAmazon_ok h).2
  · exact (scrapeAlibaba_ok h).2
  · exact (scrapeGeneric_ok h).2

example : (scrape aeApiUrl aeApiWorld).url = none := by decide
example : (scrape aeApiUrl aeApiWorld).images.length = 16 := by decide
example : detectPlatform cjUrl = "cj" := by decide
example : (scrape cjUrl cjWorld).platform = "generic" := by decide
example : (scrape azUrl azWorld).images = ["//cdn.example.com/a.jpg"] := by decide
example : (scrape mugUrl mugWorld).isDemo = none := by decide
example : scrape mugUrl emptyWorld = getDemoProduct mugUrl "generic" emptyWorld.now := by decide

/-- The demo price constant written with `mkRat` is the decimal `49.99`. -/
lemma mkRat_demo_price : mkRat 4999 100 = 49.99 := by
  norm_num [mkRat, Rat.normalize]

/-! ## The claims -/

/-- C1: for every URL and every fetch outcome, `scrape` returns a
record without letting any failure escape: the result is either a
gate-passing extractor candidate, or — on fetch failure, timeout,
unparsable markup or validation rejection — the demo record with
`isDemo = true`. -/
theorem scrape_total_worst_case_demo (url : String) (w : World) :
    (∃ c, runExtractor (detectPlatform url) url w = .ok c ∧ invalidData c = false
        ∧ scrape url w = c)
    ∨ (scrape url w = getDemoProduct url (detectPlatform url) w.now
        ∧ (scrape url w).isDemo = some true) := by
  rcases hE : runExtractor (detectPlatform url) url w with e | c
  · right
    have hscr : scrape url w = getDemoProduct url (detectPlatform url) w.now := by
      simp only [scrape]
      rw [hE]
    exact ⟨hscr, by rw [hscr]; rfl⟩
  · by_cases hI : invalidData c = true
    · right
      have hscr : scrape url w = getDemoProduct url (detectPlatform url) w.now := by
        simp only [scrape]
        rw [hE]
        simp [hI]
      exact ⟨hscr, by rw [hscr]; rfl⟩
    · left
      have hI' : invalidData c = false := by simpa using hI
      refine ⟨c, rfl, hI', ?_⟩
      simp only [scrape]
      rw [hE]
      simp [hI']

/-- C2: whenever the candidate has a missing title, a title shorter
than 5 characters, a title containing `"404"`, or a price equal to 0 —
or the selected extractor raises — `scrape` returns the demo record
(title `"Premium Wireless Bluetooth Earbuds Pro"`, price `49.99`) with
`isDemo = true` instead of the candidate. -/
theorem invalid_or_error_yields_demo (url : String) (w : World)
    (h : (∃ c, runExtractor (detectPlatform url) url w = .ok c ∧
            (c.title = "" ∨ c.title.length < 5 ∨ containsSub c.title "404" = true ∨ c.price = 0))
         ∨ runExtractor (detectPlatform url) url w = .error ()) :
    scrape url w = getDemoProduct url (detectPlatform url) w.now
    ∧ (scrape url w).title = "Premium Wireless Bluetooth Earbuds Pro"
    ∧ (scrape url w).price = 49.99
    ∧ (scrape url w).isDemo = some true := by
  have hscr : scrape url w = getDemoProduct url (detectPlatform url) w.now := by
    rcases h with ⟨c, hE, hbad⟩ | hE
    · have hI : invalidData c = true := by
        unfold invalidData
        rcases hbad with hb | hb | hb | hb
        · simp [hb]
        · simp [hb]
        · simp [hb]
        · simp [hb]
      simp only [scrape]
      rw [hE]
      simp [hI]
    · simp only [scrape]
      rw [hE]
  refine ⟨hscr, ?_, ?_, ?_⟩
  · rw [hscr]; rfl
  · rw [hscr]
    show mkRat 4999 100 = 49.99
    exact mkRat_demo_price
  · rw [hscr]; rfl

/-- Witness for C2 at a concrete input: an unrecognised URL whose
(generic) fetch fails, so the extractor raises. -/
theorem invalid_or_error_yields_demo_witness :
    ((∃ c, runExtractor (detectPlatform "notaurl") "notaurl" emptyWorld = .ok c ∧
        (c.title = "" ∨ c.title.length < 5 ∨ containsSub c.title "404" = true ∨ c.price = 0))
      ∨ runExtractor (detectPlatform "notaurl") "notaurl" emptyWorld = .error ())
    ∧ (scrape "notaurl" emptyWorld
          = getDemoProduct "notaurl" (detectPlatform "notaurl") emptyWorld.now
       ∧ (scrape "notaurl" emptyWorld).title = "Premium Wireless Bluetooth Earbuds Pro"
       ∧ (scrape "notaurl" emptyWorld).price = 49.99
       ∧ (scrape "notaurl" emptyWorld).isDemo = some true) :=
  ⟨Or.inr rfl, invalid_or_error_yields_demo "notaurl" emptyWorld (Or.inr rfl)⟩

/-- C3 counterexample: two demo substitutions for the same trigger made
at different clock readings are not identical — `scrapedAt` is stamped
with the current time (`new Date().toISOString()`), not a constant. -/
theorem demo_scrapedAt_varies :
    getDemoProduct "https://example.com/a" "generic" "2024-01-01T00:00:00.000Z"
      ≠ getDemoProduct "https://example.com/a" "generic" "2024-01-02T00:00:00.000Z" := by
  intro h
  have h2 := congrArg Record.scrapedAt h
  simp only [getDemoProduct] at h2
  exact absurd h2 (by decide)

/-- C3 amended: two demo substitutions for the same trigger agree on
every field except `scrapedAt`, which is the clock reading at the call. -/
theorem demo_constant_except_scrapedAt (url platform t₁ t₂ : String) :
    { getDemoProduct url platform t₁ with scrapedAt := "" }
      = { getDemoProduct url platform t₂ with scrapedAt := "" }
    ∧ (getDemoProduct url platform t₁).scrapedAt = t₁ :=
  ⟨rfl, rfl⟩

/-- C4 counterexample: a gate-passing candidate is returned with its
`isDemo` field absent (`none`), not set to `false`. -/
theorem accepted_isDemo_absent_not_false :
    invalidData mugRecord = false
    ∧ scrape mugUrl mugWorld = mugRecord
    ∧ (scrape mugUrl mugWorld).isDemo = none
    ∧ (scrape mugUrl mugWorld).isDemo ≠ some false := by decide

/-- C4 amended: a candidate that passes the gate is returned with every
field unchanged — `scrapedAt` was already stamped by the extractor when
the candidate was built, and `isDemo` is not written at all (it is
absent on every extractor candidate, never `false`). -/
theorem accepted_candidate_returned_unchanged (url : String) (w : World) (c : Record)
    (h : runExtractor (detectPlatform url) url w = .ok c)
    (hv : invalidData c = false) :
    scrape url w = c ∧ c.isDemo = none := by
  refine ⟨?_, runExtractor_ok_isDemo h⟩
  simp only [scrape]
  rw [h]
  simp [hv]

/-- Witness for the amended C4 at a concrete gate-passing extraction. -/
theorem accepted_candidate_returned_unchanged_witness :
    (runExtractor (detectPlatform mugUrl) mugUrl mugWorld = .ok mugRecord
      ∧ invalidData mugRecord = false)
    ∧ (scrape mugUrl mugWorld = mugRecord ∧ mugRecord.isDemo = none) :=
  ⟨⟨rfl, by decide⟩,
    accepted_candidate_returned_unchanged mugUrl mugWorld mugRecord rfl (by decide)⟩

/-- C5 counterexample: for a CJ-dropshipping URL the detector assigns
`"cj"`, but the accepted record built by the generic extractor carries
the hardcoded platform `"generic"`. -/
theorem cj_platform_rewritten_generic :
    detectPlatform cjUrl = "cj"
    ∧ (scrape cjUrl cjWorld).isDemo = none
    ∧ (scrape cjUrl cjWorld).platform = "generic"
    ∧ (scrape cjUrl cjWorld).platform ≠ detectPlatform cjUrl := by decide

/-- C5 amended: the returned record's platform equals the detector's
value except when the detector yields `"1688"` or `"cj"` and the
dispatched generic extraction is accepted — the extractor return
objects hardcode their platform tag, and the generic extractor writes
`"generic"`; the demo fallback always keeps the detector's value. -/
theorem platform_preserved_except_generic_dispatch (url : String) (w : World) :
    (scrape url w).platform = detectPlatform url
    ∨ (detectPlatform url ∈ (["1688", "cj"] : List String)
       ∧ (scrape url w).platform = "generic"
       ∧ (scrape url w).isDemo = none) := by
  rcases hE : runExtractor (detectPlatform url) url w with e | c
  · left
    have hscr : scrape url w = getDemoProduct url (detectPlatform url) w.now := by
      simp only [scrape]
      rw [hE]
    rw [hscr]
    rfl
  · by_cases hI : invalidData c = true
    · left
      have hscr : scrape url w = getDemoProduct url (detectPlatform url) w.now := by
        simp only [scrape]
        rw [hE]
        simp [hI]
      rw [hscr]
      rfl
    · have hI' : invalidData c = false := by simpa using hI
      have hscr : scrape url w = c := by
        simp only [scrape]
        rw [hE]
        simp [hI']
      have hd : c.isDemo = none := runExtractor_ok_isDemo hE
      rcases detectPlatform_cases url with hp | hp | hp | hp | hp | hp
      · left
        rw [hscr, hp]
        rw [hp] at hE
        exact (scrapeAliExpress_ok hE).1
      · left
        rw [hscr, hp]
        rw [hp] at hE
        exact (scrapeAmazon_ok hE).1
      · left
        rw [hscr, hp]
        rw [hp] at hE
        exact (scrapeAlibaba_ok hE).1
      · right
        rw [hp] at hE
        exact ⟨by simp [hp], by rw [hscr]; exact (scrapeGeneric_ok hE).1, by rw [hscr]; exact hd⟩
      · right
        rw [hp] at hE
        exact ⟨by simp [hp], by rw [hscr]; exact (scrapeGeneric_ok hE).1, by rw [hscr]; exact hd⟩
      · left
        rw [hscr, hp]
        rw [hp] at hE
        exact (scrapeGeneric_ok hE).1

/-- C6 counterexample: a `1688.com` URL is detected as `"1688"`, a
value outside the claimed five-member enumeration (`"generic"` being
the spec's `genericHttp`). -/
theorem detect_enum_includes_1688 :
    detectPlatform "https://www.1688.com/offer/123.html" = "1688"
    ∧ "1688" ∉ (["aliexpress", "amazon", "alibaba", "cj", "generic"] : List String) := by decide

/-- The five hostname fragments `detectPlatform` recognises. -/
def recognizedFragment (url : String) : Bool :=
  containsSub (lowerStr url) "aliexpress." || containsSub (lowerStr url) "amazon."
  || containsSub (lowerStr url) "alibaba.com" || containsSub (lowerStr url) "1688.com"
  || containsSub (lowerStr url) "cjdropshipping.com"

/-- C6 amended: `detectPlatform` is a pure total function into the
six-member enumeration (the spec's five plus `"1688"`); it depends only
on the lowercased URL (case-insensitive matching, first fragment in the
fixed order winning), and returns `"generic"` whenever no recognised
fragment occurs. -/
theorem detectPlatform_enum_ci_default (u₁ u₂ : String) (h : lowerStr u₁ = lowerStr u₂) :
    detectPlatform u₁ ∈ (["aliexpress", "amazon", "alibaba", "1688", "cj", "generic"] : List String)
    ∧ detectPlatform u₁ = detectPlatform u₂
    ∧ (recognizedFragment u₁ = false → detectPlatform u₁ = "generic") := by
  refine ⟨?_, ?_, ?_⟩
  · rcases detectPlatform_cases u₁ with hp | hp | hp | hp | hp | hp <;> simp [hp]
  · simp only [detectPlatform]
    rw [h]
  · intro hrec
    unfold recognizedFragment at hrec
    simp only [Bool.or_eq_false_iff] at hrec
    obtain ⟨⟨⟨⟨h1, h2⟩, h3⟩, h4⟩, h5⟩ := hrec
    simp only [detectPlatform]
    simp [h1, h2, h3, h4, h5]

/-- Witness for the amended C6: the spec's own case-insensitivity pair. -/
theorem detectPlatform_enum_ci_default_witness :
    lowerStr "AliExpress.com/item/1" = lowerStr "aliexpress.com/item/1"
    ∧ (detectPlatform "AliExpress.com/item/1"
          ∈ (["aliexpress", "amazon", "alibaba", "1688", "cj", "generic"] : List String)
       ∧ detectPlatform "AliExpress.com/item/1" = detectPlatform "aliexpress.com/item/1"
       ∧ (recognizedFragment "AliExpress.com/item/1" = false →
            detectPlatform "AliExpress.com/item/1" = "generic")) :=
  ⟨by decide, detectPlatform_enum_ci_default "AliExpress.com/item/1" "aliexpress.com/item/1" (by decide)⟩

/-- C7 counterexample: a successful AliExpress mobile-API extraction is
accepted by the gate, yet the returned record has no source-URL field at
all — `scrapeAliExpressAPI`'s return object omits `url`. -/
theorem api_record_missing_url :
    (scrape aeApiUrl aeApiWorld).isDemo = none
    ∧ (scrape aeApiUrl aeApiWorld).url = none
    ∧ (scrape aeApiUrl aeApiWorld).url ≠ some aeApiUrl := by decide

/-- C7 amended: every extractor return object and the demo record carry
the input URL verbatim in their `url` field, except the AliExpress
mobile-API record, which carries no `url` at all. -/
theorem url_preserved_except_api_path (url plat now : String) (pid : Option String)
    (pid₂ : String) (ap : AliPage) (az : AmazonPage) (ab : AlibabaPage) (g : GenericPage)
    (res : String → String) (item : AliApiItem) :
    (aliHtmlRecord url pid ap now).url = some url
    ∧ (amazonRecord url az now).url = some url
    ∧ (alibabaRecord url ab now).url = some url
    ∧ (genericRecord res url g now).url = some url
    ∧ (getDemoProduct url plat now).url = some url
    ∧ (apiRecord pid₂ item now).url = none :=
  ⟨rfl, rfl, rfl, rfl, rfl, rfl⟩

/-- C8 counterexample: a gate-passing AliExpress mobile-API record
copies `item.images` through untouched — here sixteen identical URLs,
so the returned list has length 16 > 15 and duplicates. -/
theorem api_images_uncapped_dup :
    (scrape aeApiUrl aeApiWorld).isDemo = none
    ∧ (scrape aeApiUrl aeApiWorld).images.length = 16
    ∧ ¬ (scrape aeApiUrl aeApiWorld).images.Nodup := by decide

/-- C8 amended: the demo record and every HTML-path return object cap
`images` at 15 entries; the AliExpress-HTML, Amazon and generic
pipelines are additionally duplicate-free, and the generic pipeline
admits only non-`data:` sources; but the AliExpress mobile-API record
copies `item.images` through with no cap, dedup or filtering (and the
Alibaba dedup check, made on the raw source before protocol-relative
normalisation, does not guarantee freedom from duplicates). -/
theorem images_cap_dedup_by_path :
    (∀ url pid p now, (aliHtmlRecord url pid p now).images.length ≤ 15
        ∧ (aliHtmlRecord url pid p now).images.Nodup)
    ∧ (∀ url p now, (amazonRecord url p now).images.length ≤ 15
        ∧ (amazonRecord url p now).images.Nodup)
    ∧ (∀ url p now, (alibabaRecord url p now).images.length ≤ 15)
    ∧ (∀ res url p now, (genericRecord res url p now).images.length ≤ 15
        ∧ (genericRecord res url p now).images.Nodup
        ∧ ∀ s ∈ (genericRecord res url p now).images,
            ∃ src ∈ p.imgSrcs, src ≠ "" ∧ startsWithStr src "data:" = false
              ∧ s = if startsWithStr src "http" then src else res src)
    ∧ (∀ url plat now, (getDemoProduct url plat now).images.Nodup
        ∧ (getDemoProduct url plat now).images.length ≤ 15
        ∧ ∀ s ∈ (getDemoProduct url plat now).images, startsWithStr s "data:" = false)
    ∧ (∀ pid item now, (apiRecord pid item now).images = item.images) := by
  refine ⟨?_, ?_, ?_, ?_, ?_, fun _ _ _ => rfl⟩
  · intro url pid p now
    have hnd : (aliexpressImages p.pageDataImages p.htmlImgSrcs).Nodup := by
      unfold aliexpressImages
      apply aliHtmlStep_good.foldl_nodup
      cases p.pageDataImages with
      | none => simp
      | some l => exact aliPdStep_good.foldl_nodup l [] (by simp)
    exact ⟨take15_length_le _, take15_nodup hnd⟩
  · intro url p now
    have hnd : (amazonImages p).Nodup := by
      unfold amazonImages
      apply amazonHiResStep_good.foldl_nodup
      apply amazonThumbStep_good.foldl_nodup
      cases p.mainImg with
      | none => simp
      | some m => simp
    exact ⟨take15_length_le _, take15_nodup hnd⟩
  · intro url p now
    exact take15_length_le _
  · intro res url p now
    have hnd : (genericImages res p.imgSrcs).Nodup :=
      (genStep_good res).foldl_nodup _ [] (by simp)
    refine ⟨take15_length_le _, take15_nodup hnd, ?_⟩
    intro s hs
    have hs' : s ∈ genericImages res p.imgSrcs := (List.take_sublist _ _).subset hs
    rcases genericImages_src res p.imgSrcs [] s hs' with h0 | h0
    · simp at h0
    · exact h0
  · intro url plat now
    refine ⟨?_, ?_, ?_⟩ <;> simp only [getDemoProduct] <;> decide

/-- C9: none of the gate's rejection criteria fire on the demo record —
its title is non-empty, 38 characters long and free of `"404"`, and its
price is 49.99 ≠ 0 — so feeding it through the gate again would accept
it unchanged. -/
theorem demo_record_passes_gate (url plat now : String) :
    (getDemoProduct url plat now).title ≠ ""
    ∧ containsSub (getDemoProduct url plat now).title "404" = false
    ∧ ¬ ((getDemoProduct url plat now).title.length < 5)
    ∧ (getDemoProduct url plat now).price ≠ 0
    ∧ invalidData (getDemoProduct url plat now) = false := by
  refine ⟨?_, ?_, ?_, ?_, ?_⟩ <;> simp only [getDemoProduct, invalidData] <;>
    first
      | decide
      | rfl

/-- C10 counterexample: the Amazon extractor pushes its protocol-relative
main-image URL unrewritten (its only transformation is the `._…_.` size
strip), so `//cdn.example.com/a.jpg` reaches the accepted record's
image list without the claimed HTTPS rewrite. -/
theorem amazon_protocol_relative_not_rewritten :
    (scrape azUrl azWorld).isDemo = none
    ∧ (scrape azUrl azWorld).images = ["//cdn.example.com/a.jpg"]
    ∧ startsWithStr "//cdn.example.com/a.jpg" "//" = true
    ∧ startsWithStr "//cdn.example.com/a.jpg" "https:" = false := by decide

/-- C10 amended: only the AliExpress page-data image loop and the
Alibaba extractor rewrite protocol-relative sources to absolute HTTPS
(their outputs never start with `//`, and each `//`-source appears as
its `https:`-prefixed form); the generic extractor instead resolves
such sources against the page URL (`new URL(src, url)`), while the
Amazon extractor and the AliExpress API path pass them through. -/
theorem protocol_relative_rewrite_by_path :
    (∀ l s, s ∈ aliPageDataImages l → startsWithStr s "//" = false)
    ∧ (∀ l src, src ∈ l → startsWithStr src "//" = true →
        ("https:" ++ src) ∈ aliPageDataImages l)
    ∧ (∀ srcs s, s ∈ alibabaImages srcs → startsWithStr s "//" = false)
    ∧ (∀ srcs src, src ∈ srcs → startsWithStr src "//" = true →
        ("https:" ++ src) ∈ alibabaImages srcs)
    ∧ (∀ res srcs src, src ∈ srcs → startsWithStr src "//" = true →
        res src ∈ genericImages res srcs) := by
  refine ⟨?_, ?_, ?_, ?_, ?_⟩
  · intro l s hs
    exact aliPd_fold_inv l [] (by simp) s hs
  · intro l src hsrc hss
    have hdep := foldl_processed_mem aliPdStep_good.extendsStep
      (fun _ => True) (fun x => if startsWithStr x "//" = true then "https:" ++ x else x)
      (fun a x _ => mem_pushIfNew a _) l [] src hsrc trivial
    have hdep2 : (if startsWithStr src "//" = true then "https:" ++ src else src)
        ∈ List.foldl aliPdStep [] l := hdep
    rw [if_pos hss] at hdep2
    exact hdep2
  · intro srcs s hs
    exact alibaba_fold_inv srcs [] (by simp) s hs
  · intro srcs src hsrc hss
    exact alibaba_rewrite_mem srcs [] (by simp) src hsrc hss
  · intro res srcs src hsrc hss
    have hval : ∀ a x, (x ≠ "" ∧ startsWithStr x "data:" = false) →
        (if startsWithStr x "http" = true then x else res x) ∈ genStep res a x := by
      intro a x hc
      unfold genStep
      rw [if_pos hc]
      exact mem_pushIfNew a _
    have hdep := foldl_processed_mem (genStep_good res).extendsStep
      (fun x => x ≠ "" ∧ startsWithStr x "data:" = false)
      (fun x => if startsWithStr x "http" = true then x else res x)
      hval srcs [] src hsrc ⟨slashslash_ne_empty hss, slashslash_not_data hss⟩
    have hdep2 : (if startsWithStr src "http" = true then src else res src)
        ∈ List.foldl (genStep res) [] srcs := hdep
    rw [if_neg (show ¬ startsWithStr src "http" = true by simp [slashslash_not_http hss])] at hdep2
    exact hdep2
